import Mathlib

/-! # Shallow embedding of the elevation-enrichment pipeline

Source: `scripts/etl/enrich-elevation.ts` — a batch pipeline that enriches
trail records with elevation profiles, elevation gain and a dominant aspect.

Modelling conventions:
* JavaScript floating-point numbers are modelled by exact rationals (`ℚ`);
  `Math.round` by `jsRound` (nearest integer, halves toward `+∞`).
* Nullable numbers (`number | null | undefined`) are `Option ℚ`; the `??`
  operator is `nullish`, the `||` operator on numbers is `jsOr`, and JS
  truthiness of a nullable number is `jsTruthy`.
* Calls into external libraries (turf's geodesic `length`/`along`/`bearing`,
  `fetch`) are parameters of the embedding: the pipeline's behaviour is
  proved for every implementation of those externals.
* Elevations returned by the service and stored in profiles are integers
  (the source rounds them with `Math.round`), hence `ℤ` there.
-/

namespace Enrich

/-- JavaScript `Math.round`: nearest integer, halves rounded toward `+∞`. -/
def jsRound (q : ℚ) : ℤ := ⌊q + 1/2⌋

/-- JavaScript truthiness of a nullable number: `null`, `undefined` and `0`
are falsy, every other number is truthy. -/
def jsTruthy (o : Option ℚ) : Bool := decide (o.getD 0 ≠ 0)

/-- JavaScript `a || d` for a nullable number `a`. -/
def jsOr (o : Option ℚ) (d : ℚ) : ℚ := if jsTruthy o then o.getD 0 else d

/-- JavaScript `a ?? b` for nullable numbers (`0` is kept, unlike `||`). -/
def nullish (a b : Option ℚ) : Option ℚ :=
  match a with
  | some x => some x
  | none => b

/-! ## Configuration constants (source lines 25–29) -/

def PROFILE_SAMPLES : ℕ := 15
def MAX_RETRIES : ℕ := 3
def USGS_PROFILE_LIMIT : ℕ := 100
def CHECKPOINT_INTERVAL : ℕ := 25

/-! ## Elevation Service Client: `getElevation` (source lines 79–105) -/

/-- Outcome of one `fetch` attempt against the elevation service: `fail`
covers request errors, body-parse errors and non-2xx statuses (all of which
throw in the source and land in the `catch`); `success v` is a parsed JSON
body whose `value` field holds `v` (`none` when the field is absent). -/
inductive FetchOutcome
  | fail
  | success (value : Option ℚ)
deriving DecidableEq

/-- Result of a `getElevation` call: the returned elevation (`none` is the
source's `null`, i.e. "unknown"), the sleep durations (ms) incurred between
attempts, and how many attempts were made. -/
structure ElevResult where
  result : Option ℤ
  delays : List ℕ
  attempts : ℕ
deriving DecidableEq

/-- The retry loop of `getElevation`, at attempt number `attempt` with `rem`
attempts still allowed.  A parsed response returns immediately (rounded
value, or `null` for an absent field or the `-1000000` no-data sentinel); a
thrown error sleeps `1000 * attempt` ms and retries while attempts remain. -/
def getElevationAux (outcome : ℕ → FetchOutcome) (attempt : ℕ) : ℕ → ElevResult
  | 0 => ⟨none, [], 0⟩
  | rem + 1 =>
    match outcome attempt with
    | .success v =>
      match v with
      | some q => if q = -1000000 then ⟨none, [], 1⟩ else ⟨some (jsRound q), [], 1⟩
      | none => ⟨none, [], 1⟩
    | .fail =>
      if rem = 0 then ⟨none, [], 1⟩
      else
        let r := getElevationAux outcome (attempt + 1) rem
        ⟨r.result, 1000 * attempt :: r.delays, r.attempts + 1⟩

/-- `getElevation(lat, lon)` as a function of the per-attempt fetch
outcomes: attempts are numbered `1..MAX_RETRIES`. -/
def getElevation (outcome : ℕ → FetchOutcome) : ElevResult :=
  getElevationAux outcome 1 MAX_RETRIES

/-! ## Trail records -/

/-- The eight compass octants. -/
inductive Aspect
  | N | NE | E | SE | S | SW | W | NW
deriving DecidableEq

/-- A GeoJSON position `[lon, lat]`. -/
abbrev Coord : Type := ℚ × ℚ

/-- A `MultiLineString`'s coordinates: a list of parts, each a list of
positions. -/
abbrev Geometry : Type := List (List Coord)

/-- One entry of an elevation profile: `{ distance_mi, elevation_m }`. -/
structure ProfilePt where
  distance_mi : ℚ
  elevation_m : ℤ
deriving DecidableEq

/-- The fields of a `TrailData` record that the pipeline reads or writes.
Inert descriptive metadata (ids, names, surface, soil fields, centroid, …)
is carried by the record but never used by the enrichment logic and is
omitted from the embedding. -/
structure Trail where
  length_miles : Option ℚ
  elevation_min_m : Option ℚ
  elevation_max_m : Option ℚ
  geometry : Geometry
  elevation_min : Option ℚ
  elevation_max : Option ℚ
  elevation_gain : Option ℤ
  dominant_aspect : Option Aspect
  elevation_profile : Option (List ProfilePt)
deriving DecidableEq

/-! ## Profile Interpolator: `interpolateProfile` (source lines 169–189) -/

/-- `interpolateProfile(trail, numPoints)`: a synthetic up-then-down profile
from the trail's min/max elevation (`?? 2000` / `?? 2500` defaults) over its
length (`?? 1`). -/
def interpolateProfile (trail : Trail) (numPoints : ℕ) : List ProfilePt :=
  let minElev := (nullish trail.elevation_min_m trail.elevation_min).getD 2000
  let maxElev := (nullish trail.elevation_max_m trail.elevation_max).getD 2500
  let lengthMi := trail.length_miles.getD 1
  (List.range numPoints).map (fun i : ℕ =>
    let fraction : ℚ := if numPoints = 1 then 0 else (i : ℚ) / ((numPoints : ℚ) - 1)
    let distMi : ℚ := (jsRound (fraction * lengthMi * 100) : ℚ) / 100
    let t : ℚ := if fraction ≤ 1/2 then fraction * 2 else 2 - fraction * 2
    ⟨distMi, jsRound (minElev + t * (maxElev - minElev))⟩)

/-! ## Geometry Sampler: `samplePoints` (source lines 109–166)

The geodesic helpers `turf.length` and `turf.along` are external library
functions; the embedding takes them as parameters `len` (kilometers of a
part) and `along` (the position at a given distance along a part). -/

/-- One sampled point: latitude, longitude, cumulative distance (miles). -/
structure SamplePt where
  lat : ℚ
  lon : ℚ
  distanceMi : ℚ
deriving DecidableEq

/-- The usable segments of a geometry: parts with at least two coordinates
whose measured length is positive, paired with that length (km). -/
def sampleSegments (len : List Coord → ℚ) (geometry : Geometry) :
    List (List Coord × ℚ) :=
  geometry.filterMap (fun coords =>
    if coords.length < 2 then none
    else
      let lengthKm := len coords
      if 0 < lengthKm then some (coords, lengthKm) else none)

/-- The inner segment-walk of `samplePoints`: scan segments in order,
breaking at the first segment whose end passes `targetKm` — with the final
segment as catch-all — and interpolate within it.  Returns `none` only when
no segments remain (never reached from a non-empty segment list). -/
def samplePick (along : List Coord → ℚ → Coord) (distMi targetKm : ℚ) :
    ℚ → List (List Coord × ℚ) → Option SamplePt
  | _, [] => none
  | accumulated, seg :: rest =>
    if targetKm ≤ accumulated + seg.2 ∨ rest = [] then
      let withinSeg := min (targetKm - accumulated) seg.2
      let point := along seg.1 (max 0 withinSeg)
      some ⟨point.2, point.1, distMi⟩
    else
      samplePick along distMi targetKm (accumulated + seg.2) rest

/-- The total length, in miles, that `samplePoints` spaces its samples over:
the supplied trail length when truthy, otherwise the measured total
kilometers converted to miles. -/
def sampleTotalMi (len : List Coord → ℚ) (geometry : Geometry)
    (trailLengthMi : Option ℚ) : ℚ :=
  let totalLengthKm := ((sampleSegments len geometry).map (·.2)).sum
  jsOr trailLengthMi (totalLengthKm * (621371 / 1000000))

/-- `samplePoints(geometry, numSamples, trailLengthMi)`: evenly spaced
samples along a multi-part geometry, distributed proportionally across
parts.  Degenerate geometry yields `[]`. -/
def samplePoints (len : List Coord → ℚ) (along : List Coord → ℚ → Coord)
    (geometry : Geometry) (numSamples : ℕ) (trailLengthMi : Option ℚ) :
    List SamplePt :=
  let segments := sampleSegments len geometry
  if segments = [] then []
  else
    let totalLengthKm := (segments.map (·.2)).sum
    let totalLengthMi := sampleTotalMi len geometry trailLengthMi
    (List.range numSamples).filterMap (fun i : ℕ =>
      let fraction : ℚ := if numSamples = 1 then 0 else (i : ℚ) / ((numSamples : ℚ) - 1)
      let targetKm := fraction * totalLengthKm
      let distMi : ℚ := (jsRound (fraction * totalLengthMi * 100) : ℚ) / 100
      samplePick along distMi targetKm 0 segments)

/-! ## Aspect Estimator: `calculateDominantAspect` (source lines 192–224)

Trigonometry over the reals; `turf.bearing` (geodesic initial bearing, in
degrees) is an external library function and a parameter of the embedding. -/

open Real in
/-- JavaScript `Math.trunc` (round toward zero), on the reals. -/
noncomputable def jsTruncR (x : ℝ) : ℝ := if 0 ≤ x then (⌊x⌋ : ℝ) else (⌈x⌉ : ℝ)

/-- JavaScript `a % n` (fmod: remainder with the sign of the dividend). -/
noncomputable def jsModR (a n : ℝ) : ℝ := a - n * jsTruncR (a / n)

/-- Two-argument arctangent, as JavaScript's `Math.atan2(y, x)`. -/
noncomputable def atan2 (y x : ℝ) : ℝ :=
  if 0 < x then Real.arctan (y / x)
  else if x < 0 ∧ 0 ≤ y then Real.arctan (y / x) + Real.pi
  else if x < 0 ∧ y < 0 then Real.arctan (y / x) - Real.pi
  else if x = 0 ∧ 0 < y then Real.pi / 2
  else if x = 0 ∧ y < 0 then -(Real.pi / 2)
  else 0

/-- The flattened coordinate sequence: parts concatenated in input order
(source lines 194–197). -/
def flattenCoords (geometry : Geometry) : List Coord := geometry.flatten

/-- The chained octant classification of the normalized mean bearing `b`
(source lines 213–220): every branch left to earlier branches falls through,
the final `else` returning NW. -/
noncomputable def octantOf (b : ℝ) : Aspect :=
  if 337.5 ≤ b ∨ b < 22.5 then .N
  else if 22.5 ≤ b ∧ b < 67.5 then .NE
  else if 67.5 ≤ b ∧ b < 112.5 then .E
  else if 112.5 ≤ b ∧ b < 157.5 then .SE
  else if 157.5 ≤ b ∧ b < 202.5 then .S
  else if 202.5 ≤ b ∧ b < 247.5 then .SW
  else if 247.5 ≤ b ∧ b < 292.5 then .W
  else .NW

/-- `calculateDominantAspect(geometry)`: circular mean of the consecutive
bearings of the flattened coordinates, normalized to `[0,360)` and
classified into an octant; fewer than two coordinates yields `null`. -/
noncomputable def calculateDominantAspect (bearing : Coord → Coord → ℝ)
    (geometry : Geometry) : Option Aspect :=
  let coords := flattenCoords geometry
  if coords.length < 2 then none
  else
    let bearings := (coords.zip coords.tail).map (fun p => bearing p.1 p.2)
    let sinSum := (bearings.map (fun β => Real.sin (β * Real.pi / 180))).sum
    let cosSum := (bearings.map (fun β => Real.cos (β * Real.pi / 180))).sum
    let avgBearing := atan2 sinSum cosSum * 180 / Real.pi
    let b := jsModR (jsModR avgBearing 360 + 360) 360
    some (octantOf b)

/-- Modelled from the spec's words (for comparison with `octantOf`): the
compass octant whose half-open 45°-wide sector, centered on the direction,
contains `b`; N covers `[337.5,360) ∪ [0,22.5)`. -/
noncomputable def specSector (b : ℝ) : Aspect :=
  if b ∈ Set.Ico (337.5 : ℝ) 360 ∪ Set.Ico 0 22.5 then .N
  else if b ∈ Set.Ico (22.5 : ℝ) 67.5 then .NE
  else if b ∈ Set.Ico (67.5 : ℝ) 112.5 then .E
  else if b ∈ Set.Ico (112.5 : ℝ) 157.5 then .SE
  else if b ∈ Set.Ico (157.5 : ℝ) 202.5 then .S
  else if b ∈ Set.Ico (202.5 : ℝ) 247.5 then .SW
  else if b ∈ Set.Ico (247.5 : ℝ) 292.5 then .W
  else .NW

/-! ## Batch Orchestrator: `enrichTrailsWithElevation` (source lines 258–445)

The file-system side (load/save of the dataset, progress and checkpoint
files) is modelled by the run's result value: the final trail list, the
final progress record, and the list of indices after which a checkpoint
(dataset + progress, saved together) was written.  The per-point elevation
lookups are an oracle `ℚ → ℚ → Option ℤ` (lat, lon ↦ resolved elevation):
`getElevation` always terminates with a value or `null`, and the source
gathers the concurrent batch results and sorts them back by original index
(lines 333–350), so the resolved list is the in-order image of the sampled
points.  The Aspect Estimator is likewise a parameter (its real-valued
trigonometry is irrelevant to the orchestrator's bookkeeping). -/

/-- The progress record (source lines 70–76); `lastRunTime` is an abstract
timestamp. -/
structure Progress where
  lastProcessedIndex : ℤ
  processedCount : ℕ
  errorCount : ℕ
  usgsCallCount : ℕ
  lastRunTime : ℕ
deriving DecidableEq

/-- External collaborators of one run: the geodesic helpers, the elevation
oracle, the aspect estimator, and a clock giving the timestamp written at
iteration `i`. -/
structure RunCtx where
  len : List Coord → ℚ
  along : List Coord → ℚ → Coord
  oracle : ℚ → ℚ → Option ℤ
  aspectFn : Geometry → Option Aspect
  time : ℕ → ℕ

/-- The skip test (source line 310): the trail already carries a non-empty
elevation profile. -/
def hasProfile (t : Trail) : Bool :=
  match t.elevation_profile with
  | some profile => decide (profile.length > 0)
  | none => false

/-- Insert an indexed length into a descending-sorted list, before the
first entry it is at least as long as (so earlier-indexed entries stay
first on ties). -/
def insertByLen (x : ℕ × ℚ) : List (ℕ × ℚ) → List (ℕ × ℚ)
  | [] => [x]
  | y :: ys => if y.2 ≤ x.2 then x :: y :: ys else y :: insertByLen x ys

/-- Stable sort by descending length — the JS `sort((a, b) => b.length -
a.length)` of source line 296 (JS `Array.prototype.sort` is stable; any
stable descending sort yields the same list). -/
def sortByLenDesc : List (ℕ × ℚ) → List (ℕ × ℚ)
  | [] => []
  | x :: xs => insertByLen x (sortByLenDesc xs)

/-- Eligibility selection from the trails' lengths alone (source lines
294–300): index the lengths, sort descending, keep the first
`USGS_PROFILE_LIMIT` indices. -/
def usgsEligibleOfLengths (lengths : List (Option ℚ)) : List ℕ :=
  let trailsByLength := sortByLenDesc (lengths.enum.map (fun p => (p.1, jsOr p.2 0)))
  (trailsByLength.take USGS_PROFILE_LIMIT).map (·.1)

/-- The USGS-eligible index set: top `USGS_PROFILE_LIMIT` trails by
descending `length_miles || 0`. -/
def usgsEligibleIdx (trails : List Trail) : List ℕ :=
  usgsEligibleOfLengths (trails.map (·.length_miles))

/-- Sum of the positive consecutive deltas of an elevation sequence — the
gain accumulation of source lines 347–359 restricted to resolved points. -/
def posDeltas : List ℤ → ℤ
  | a :: b :: rest => (if a < b then b - a else 0) + posDeltas (b :: rest)
  | _ => 0

/-- `trail.elevation_gain` assignment shared by the USGS-fallback path
(lines 377–379) and the interpolated path (lines 397–399): half the
max−min spread when both resolved bounds are truthy, else `null`. -/
def halfSpreadGain (t : Trail) : Option ℤ :=
  if jsTruthy t.elevation_max ∧ jsTruthy t.elevation_min then
    some (jsRound ((t.elevation_max.getD 0 - t.elevation_min.getD 0) / 2))
  else none

/-- The common per-trail mutations of source lines 317–321: resolved
min/max from the trail's own supplied values, and the aspect. -/
def resolveBaseFields (C : RunCtx) (t : Trail) : Trail :=
  { t with
    elevation_min := t.elevation_min_m
    elevation_max := t.elevation_max_m
    dominant_aspect := C.aspectFn t.geometry }

/-- The USGS branch for an eligible trail (source lines 323–389): sample
points, resolve each through the oracle in order, build the profile from
the resolved points, and either commit it with its delta-sum gain
(backfilling absent min/max from the profile) or fall back to the
interpolator with the half-spread gain.  Returns the mutated trail and the
number of service calls made (one per sampled point). -/
def servicePoints (C : RunCtx) (t1 : Trail) : List SamplePt :=
  samplePoints C.len C.along t1.geometry PROFILE_SAMPLES t1.length_miles

/-- The profile built from the resolved sampled points, in original sample
order (the source gathers batch results and re-sorts by index, lines
333–359): unresolved ("unknown") points are skipped. -/
def serviceProfile (C : RunCtx) (t1 : Trail) : List ProfilePt :=
  (servicePoints C t1).filterMap (fun pt =>
    (C.oracle pt.lat pt.lon).map (fun elev => ProfilePt.mk pt.distanceMi elev))

def enrichServiceBranch (C : RunCtx) (t1 : Trail) : Trail × ℕ :=
  let points := servicePoints C t1
  let profile := serviceProfile C t1
  if profile.length > 0 then
    let gain := posDeltas (profile.map (·.elevation_m))
    let t2 : Trail := { t1 with
      elevation_profile := some profile
      elevation_gain := some gain }
    let t3 : Trail :=
      match t2.elevation_min with
      | none =>
        { t2 with elevation_min := ((profile.map (·.elevation_m)).min?).map (fun z => (z : ℚ)) }
      | some _ => t2
    let t4 : Trail :=
      match t3.elevation_max with
      | none =>
        { t3 with elevation_max := ((profile.map (·.elevation_m)).max?).map (fun z => (z : ℚ)) }
      | some _ => t3
    (t4, points.length)
  else
    ({ t1 with
        elevation_profile := some (interpolateProfile t1 10)
        elevation_gain := halfSpreadGain t1 },
      points.length)

/-- The interpolated branch for a non-eligible trail (source lines
390–400). -/
def enrichInterpBranch (t1 : Trail) : Trail :=
  { t1 with
    elevation_profile := some (interpolateProfile t1 10)
    elevation_gain := halfSpreadGain t1 }

/-- One full non-skipped trail iteration (source lines 314–405): base
fields, aspect, then the eligible or interpolated branch.  Returns the
mutated trail and the number of elevation-service calls made. -/
def processTrail (C : RunCtx) (eligible : Bool) (t : Trail) : Trail × ℕ :=
  let t1 := resolveBaseFields C t
  if eligible then enrichServiceBranch C t1
  else (enrichInterpBranch t1, 0)

/-- The state threaded through the loop: the trail list, the progress
record, and the indices after which a checkpoint was saved. -/
structure RunState where
  trails : List Trail
  progress : Progress
  checkpoints : List ℕ
deriving DecidableEq

/-- One iteration of the main loop at index `i` (source lines 306–417):
skip if the trail already has a profile; otherwise process it, update the
progress record (counters, `lastProcessedIndex := i`, timestamp), and save
a checkpoint when `(i+1)` is a multiple of `CHECKPOINT_INTERVAL` and the
trail is USGS-eligible. -/
def enrichBody (C : RunCtx) (elig : ℕ → Bool) (st : RunState) (i : ℕ) : RunState :=
  match st.trails.get? i with
  | none => st
  | some t =>
    if hasProfile t then st
    else
      let r := processTrail C (elig i) t
      let pr := st.progress
      let pr' : Progress :=
        { lastProcessedIndex := (i : ℤ)
          processedCount := pr.processedCount + 1
          errorCount := pr.errorCount
          usgsCallCount := pr.usgsCallCount + r.2
          lastRunTime := C.time i }
      let st' : RunState := ⟨st.trails.set i r.1, pr', st.checkpoints⟩
      if (i + 1) % CHECKPOINT_INTERVAL = 0 ∧ elig i then
        ⟨st'.trails, st'.progress, st'.checkpoints ++ [i]⟩
      else st'

/-- A full run of `enrichTrailsWithElevation` from a loaded trail list and
progress record: eligibility is computed once, before iteration, from the
input list; iteration runs from `lastProcessedIndex + 1` to the end. -/
def enrichRun (C : RunCtx) (trails : List Trail) (progress : Progress) : RunState :=
  let startIndex := (progress.lastProcessedIndex + 1).toNat
  let elig := fun i => (usgsEligibleIdx trails).contains i
  (List.range' startIndex (trails.length - startIndex)).foldl
    (enrichBody C elig) ⟨trails, progress, []⟩

/-! ## General lemmas -/

theorem jsRound_mono {a b : ℚ} (h : a ≤ b) : jsRound a ≤ jsRound b :=
  Int.floor_le_floor (by linarith)

theorem posDeltas_nonneg : ∀ l : List ℤ, 0 ≤ posDeltas l
  | [] => le_refl 0
  | [_] => le_refl 0
  | a :: b :: rest => by
    have ih := posDeltas_nonneg (b :: rest)
    simp only [posDeltas]
    have : (0 : ℤ) ≤ if a < b then b - a else 0 := by
      split
      · omega
      · omega
    omega

/-! ## C6 — Elevation Service Client retry policy -/

/-- C6: `getElevation` returns "unknown" immediately — a single attempt, no
delay — when the response carries the documented −1000000 no-data sentinel;
on transient failures (non-2xx status or request error) it retries with
linearly increasing delay (1000 ms × attempt number) between attempts, up
to `MAX_RETRIES = 3` total attempts, returning the rounded value on a later
success; once retries are exhausted it returns "unknown" rather than
propagating an error. -/
theorem C6_getElevation_retry_policy (outcome : ℕ → FetchOutcome) :
    (outcome 1 = .success (some (-1000000)) →
      getElevation outcome = ⟨none, [], 1⟩) ∧
    (∀ q : ℚ, outcome 1 = .fail → outcome 2 = .success (some q) →
      q ≠ -1000000 →
      getElevation outcome = ⟨some (jsRound q), [1000 * 1], 2⟩) ∧
    (∀ q : ℚ, outcome 1 = .fail → outcome 2 = .fail →
      outcome 3 = .success (some q) → q ≠ -1000000 →
      getElevation outcome = ⟨some (jsRound q), [1000 * 1, 1000 * 2], 3⟩) ∧
    (outcome 1 = .fail → outcome 2 = .fail → outcome 3 = .fail →
      getElevation outcome = ⟨none, [1000 * 1, 1000 * 2], 3⟩) := by
  have hunfold : getElevation outcome =
      getElevationAux outcome 1 (Nat.succ (Nat.succ (Nat.succ 0))) := rfl
  refine ⟨?_, ?_, ?_, ?_⟩
  · intro h1
    rw [hunfold, getElevationAux, h1]
    simp
  · intro q h1 h2 hq
    rw [hunfold, getElevationAux, h1]
    simp only [if_neg (by omega : ¬(2 : ℕ) = 0)]
    rw [getElevationAux, h2]
    simp [hq]
  · intro q h1 h2 h3 hq
    rw [hunfold, getElevationAux, h1]
    simp only [if_neg (by omega : ¬(2 : ℕ) = 0)]
    rw [getElevationAux, h2]
    simp only [if_neg (by omega : ¬(1 : ℕ) = 0)]
    rw [getElevationAux, h3]
    simp [hq]
  · intro h1 h2 h3
    rw [hunfold, getElevationAux, h1]
    simp only [if_neg (by omega : ¬(2 : ℕ) = 0)]
    rw [getElevationAux, h2]
    simp only [if_neg (by omega : ¬(1 : ℕ) = 0)]
    rw [getElevationAux, h3]
    simp

/-- C6 witness: a client whose queries always return the no-data sentinel
answers "unknown" after one attempt with no delay. -/
theorem C6_witness :
    getElevation (fun _ => .success (some (-1000000))) = ⟨none, [], 1⟩ :=
  (C6_getElevation_retry_policy (fun _ => .success (some (-1000000)))).1 rfl

/-! ## C7 — Profile Interpolator shape -/

/-- A concrete un-enriched trail: 1 mile long, supplied elevation bounds
2000 m / 2500 m, empty geometry. -/
def trailA : Trail :=
  { length_miles := some 1
    elevation_min_m := some 2000
    elevation_max_m := some 2500
    geometry := []
    elevation_min := none
    elevation_max := none
    elevation_gain := none
    dominant_aspect := none
    elevation_profile := none }

/-- Concrete evaluation of the interpolator on a 1-mile trail with
supplied bounds 2000 m / 2500 m. -/
theorem interpolate_2000_2500 (t : Trail)
    (h1 : t.elevation_min_m = some 2000) (h2 : t.elevation_max_m = some 2500)
    (h3 : t.length_miles = some 1) :
    interpolateProfile t 10 =
      [⟨0, 2000⟩, ⟨11/100, 2111⟩, ⟨22/100, 2222⟩, ⟨33/100, 2333⟩, ⟨44/100, 2444⟩,
       ⟨56/100, 2444⟩, ⟨67/100, 2333⟩, ⟨78/100, 2222⟩, ⟨89/100, 2111⟩, ⟨1, 2000⟩] := by
  have hr : List.range 10 = [0, 1, 2, 3, 4, 5, 6, 7, 8, 9] := rfl
  simp only [interpolateProfile, h1, h2, h3, nullish, Option.getD, hr, List.map_cons,
    List.map_nil]
  norm_num [jsRound]

/-- C7 counterexample: with min 2000 and max 2500, the default 10-point
interpolated profile peaks at 2444 m — it never reaches the maximum by the
midpoint, because an even point count places no sample at fraction 1/2 and
the two middle samples sit at 8/9 of the climb. -/
theorem C7_counterexample :
    (interpolateProfile trailA 10).map (·.elevation_m) =
      [2000, 2111, 2222, 2333, 2444, 2444, 2333, 2222, 2111, 2000] ∧
    (2500 : ℤ) ∉
      ([2000, 2111, 2222, 2333, 2444, 2444, 2333, 2222, 2111, 2000] : List ℤ) := by
  constructor
  · rw [interpolate_2000_2500 trailA rfl rfl rfl]
    rfl
  · decide

/-- C7 (amended): for resolved minimum `m` and maximum `M` with `m ≤ M`,
the default 10-point profile's elevations form a symmetric unimodal
sequence `[a,b,c,d,e,e,d,c,b,a]` with `a ≤ b ≤ c ≤ d ≤ e`, rising linearly
from `jsRound m` at the ends to a peak of `jsRound (m + 8/9·(M−m))` at the
two middle indices (near, but short of, the maximum); for `m = M` the
profile is constant. -/
theorem C7_interpolateProfile_unimodal (t : Trail) (m M : ℚ)
    (hm : (nullish t.elevation_min_m t.elevation_min).getD 2000 = m)
    (hM : (nullish t.elevation_max_m t.elevation_max).getD 2500 = M)
    (hle : m ≤ M) :
    ∃ a b c d e : ℤ,
      (interpolateProfile t 10).map (·.elevation_m) = [a, b, c, d, e, e, d, c, b, a] ∧
      a ≤ b ∧ b ≤ c ∧ c ≤ d ∧ d ≤ e ∧
      a = jsRound m ∧ e = jsRound (m + 8/9 * (M - m)) ∧
      (m = M →
        [a, b, c, d, e] = [jsRound m, jsRound m, jsRound m, jsRound m, jsRound m]) := by
  have hd : (0 : ℚ) ≤ M - m := by linarith
  refine ⟨jsRound m, jsRound (m + 2/9 * (M - m)), jsRound (m + 4/9 * (M - m)),
    jsRound (m + 6/9 * (M - m)), jsRound (m + 8/9 * (M - m)), ?_, ?_, ?_, ?_, ?_, rfl, rfl, ?_⟩
  · have hr : List.range 10 = [0, 1, 2, 3, 4, 5, 6, 7, 8, 9] := rfl
    simp only [interpolateProfile, hm, hM, hr, List.map_cons, List.map_nil]
    norm_num
  · exact jsRound_mono (by nlinarith)
  · exact jsRound_mono (by nlinarith)
  · exact jsRound_mono (by nlinarith)
  · exact jsRound_mono (by nlinarith)
  · intro hmM
    rw [hmM]
    norm_num

/-- C7 witness for the amended theorem, at the concrete trail `trailA`. -/
theorem C7_witness :
    ∃ a b c d e : ℤ,
      (interpolateProfile trailA 10).map (·.elevation_m) = [a, b, c, d, e, e, d, c, b, a] ∧
      a ≤ b ∧ b ≤ c ∧ c ≤ d ∧ d ≤ e ∧
      a = jsRound 2000 ∧ e = jsRound (2000 + 8/9 * (2500 - 2000)) ∧
      ((2000 : ℚ) = 2500 →
        [a, b, c, d, e] = [jsRound 2000, jsRound 2000, jsRound 2000, jsRound 2000,
          jsRound 2000]) :=
  C7_interpolateProfile_unimodal trailA 2000 2500 (by decide) (by decide) (by norm_num)

/-! ## C1 — Geometry Sampler -/

theorem filterMap_map_eq_map {α β γ : Type} (f : α → Option β) (g : β → γ) (h : α → γ)
    (l : List α) (H : ∀ a ∈ l, ∃ b, f a = some b ∧ g b = h a) :
    (l.filterMap f).map g = l.map h := by
  induction l with
  | nil => rfl
  | cons x xs ih =>
    obtain ⟨b, hb, hgb⟩ := H x (List.mem_cons_self x xs)
    simp [List.filterMap_cons, hb, hgb, ih (fun a ha => H a (List.mem_cons_of_mem x ha))]

/-- The segment walk always yields a sample (carrying the requested
distance) as long as at least one segment remains: the final segment is a
catch-all. -/
theorem samplePick_eq_some (along : List Coord → ℚ → Coord) (distMi : ℚ) :
    ∀ (segs : List (List Coord × ℚ)) (targetKm acc : ℚ), segs ≠ [] →
      ∃ p : SamplePt, samplePick along distMi targetKm acc segs = some p ∧
        p.distanceMi = distMi
  | [], _, _, h => absurd rfl h
  | seg :: rest, targetKm, acc, _ => by
    by_cases hc : targetKm ≤ acc + seg.2 ∨ rest = []
    · exact ⟨_, by rw [samplePick, if_pos hc], rfl⟩
    · have hrest : rest ≠ [] := fun h => hc (Or.inr h)
      obtain ⟨p, hp, hd⟩ :=
        samplePick_eq_some along distMi rest targetKm (acc + seg.2) hrest
      exact ⟨p, by rw [samplePick, if_neg hc]; exact hp, hd⟩

/-- A non-degenerate part (≥ 2 coordinates, positive measured length)
guarantees a usable segment. -/
theorem sampleSegments_ne_nil (len : List Coord → ℚ) (geometry : Geometry)
    (hpart : ∃ part ∈ geometry, ¬part.length < 2 ∧ 0 < len part) :
    sampleSegments len geometry ≠ [] := by
  obtain ⟨part, hmem, hlen, hpos⟩ := hpart
  have : (part, len part) ∈ sampleSegments len geometry := by
    apply List.mem_filterMap.2
    exact ⟨part, hmem, by rw [if_neg hlen, if_pos hpos]⟩
  exact List.ne_nil_of_mem this

theorem sampleSegments_pos (len : List Coord → ℚ) (geometry : Geometry) :
    ∀ s ∈ sampleSegments len geometry, 0 < s.2 := by
  intro s hs
  obtain ⟨part, _, hsome⟩ := List.mem_filterMap.1 hs
  by_cases h1 : part.length < 2
  · rw [if_pos h1] at hsome
    exact absurd hsome (by simp)
  · rw [if_neg h1] at hsome
    by_cases h2 : 0 < len part
    · rw [if_pos h2] at hsome
      obtain ⟨h3, h4⟩ := Prod.mk.injEq .. ▸ Option.some.injEq .. ▸ hsome
      simpa [← h4] using h2
    · rw [if_neg h2] at hsome
      exact absurd hsome (by simp)

/-- The total length `samplePoints` spaces over is non-negative whenever the
supplied length (if truthy) is. -/
theorem sampleTotalMi_nonneg (len : List Coord → ℚ) (geometry : Geometry)
    (L : Option ℚ) (hL : ∀ l, L = some l → 0 ≤ l) :
    0 ≤ sampleTotalMi len geometry L := by
  have hsum : 0 ≤ ((sampleSegments len geometry).map (·.2)).sum := by
    apply List.sum_nonneg
    intro x hx
    obtain ⟨s, hs, rfl⟩ := List.mem_map.1 hx
    exact le_of_lt (sampleSegments_pos len geometry s hs)
  unfold sampleTotalMi jsOr
  split
  · next htrue =>
    cases L with
    | none => simp [jsTruthy] at htrue
    | some l => exact hL l rfl
  · positivity

/-- The distance values of the samples, in order: the rounded proportional
distances of ranks `0..N-1`. -/
theorem samplePoints_map_dist (len : List Coord → ℚ) (along : List Coord → ℚ → Coord)
    (geometry : Geometry) (N : ℕ) (L : Option ℚ)
    (hseg : sampleSegments len geometry ≠ []) :
    (samplePoints len along geometry N L).map (·.distanceMi) =
      (List.range N).map (fun i : ℕ =>
        ((jsRound ((if N = 1 then 0 else (i : ℚ) / ((N : ℚ) - 1)) *
          sampleTotalMi len geometry L * 100) : ℚ) / 100)) := by
  unfold samplePoints
  rw [if_neg hseg]
  apply filterMap_map_eq_map
  intro i _
  obtain ⟨p, hp, hd⟩ := samplePick_eq_some along _ (sampleSegments len geometry) _ 0 hseg
  exact ⟨p, hp, hd⟩

/-- C1: for a geometry with at least one non-degenerate part and any
requested count `N ≥ 1` (the supplied length, when present, being a
genuine non-negative length), `samplePoints` returns exactly `N` points
with non-decreasing distances, the first at distance 0, the last (when
`N ≥ 2`) within half a rounding unit (1/200 mi) of the supplied-or-computed
total length; for `N = 1` it returns a single point at distance 0. -/
theorem C1_samplePoints_spec (len : List Coord → ℚ) (along : List Coord → ℚ → Coord)
    (geometry : Geometry) (N : ℕ) (L : Option ℚ)
    (hN : 1 ≤ N)
    (hpart : ∃ part ∈ geometry, ¬part.length < 2 ∧ 0 < len part)
    (hL : ∀ l, L = some l → 0 ≤ l) :
    (samplePoints len along geometry N L).length = N ∧
    List.Sorted (· ≤ ·) ((samplePoints len along geometry N L).map (·.distanceMi)) ∧
    ((samplePoints len along geometry N L).map (·.distanceMi)).head? = some 0 ∧
    (2 ≤ N → ∃ dlast,
      ((samplePoints len along geometry N L).map (·.distanceMi)).getLast? = some dlast ∧
      |dlast - sampleTotalMi len geometry L| ≤ 1 / 200) ∧
    (N = 1 → ∃ p, samplePoints len along geometry N L = [p] ∧ p.distanceMi = 0) := by
  have hseg := sampleSegments_ne_nil len geometry hpart
  have hTM := sampleTotalMi_nonneg len geometry L hL
  have hmap := samplePoints_map_dist len along geometry N L hseg
  set TM := sampleTotalMi len geometry L with hTMdef
  set dfun : ℕ → ℚ := fun i : ℕ =>
    ((jsRound ((if N = 1 then 0 else (i : ℚ) / ((N : ℚ) - 1)) * TM * 100) : ℚ) / 100)
    with hdfun
  have hlen : (samplePoints len along geometry N L).length = N := by
    have := congrArg List.length hmap
    simpa using this
  have hfrac0 : (if N = 1 then (0 : ℚ) else (0 : ℚ) / ((N : ℚ) - 1)) = 0 := by
    split <;> simp
  have hd0 : dfun 0 = 0 := by
    simp only [hdfun, Nat.cast_zero, hfrac0, zero_mul]
    norm_num [jsRound]
  have hmono : ∀ i j : ℕ, i ≤ j → dfun i ≤ dfun j := by
    intro i j hij
    by_cases h1 : N = 1
    · simp [hdfun, h1]
    · have hN2 : 2 ≤ N := by omega
      have hden : (0 : ℚ) ≤ (N : ℚ) - 1 := by
        have : (2 : ℚ) ≤ (N : ℚ) := by exact_mod_cast hN2
        linarith
      have hfrac : (i : ℚ) / ((N : ℚ) - 1) ≤ (j : ℚ) / ((N : ℚ) - 1) :=
        div_le_div_of_nonneg_right (by exact_mod_cast hij) hden
      have harg : (i : ℚ) / ((N : ℚ) - 1) * TM * 100 ≤
          (j : ℚ) / ((N : ℚ) - 1) * TM * 100 := by
        have h2 := mul_le_mul_of_nonneg_right hfrac hTM
        exact mul_le_mul_of_nonneg_right h2 (by norm_num)
      have hround := jsRound_mono harg
      simp only [hdfun, if_neg h1]
      exact div_le_div_of_nonneg_right (by exact_mod_cast hround) (by norm_num)
  refine ⟨hlen, ?_, ?_, ?_, ?_⟩
  · rw [hmap]
    exact ((List.pairwise_lt_range N).map dfun
      (fun a b hab => hmono a b (le_of_lt hab)))
  · rw [hmap]
    obtain ⟨n, rfl⟩ : ∃ n, N = n + 1 := ⟨N - 1, by omega⟩
    rw [List.range_succ_eq_map]
    simp only [List.map_cons, List.head?_cons, Option.some.injEq]
    exact hd0
  · intro hN2
    rw [hmap]
    obtain ⟨n, rfl⟩ : ∃ n, N = n + 1 := ⟨N - 1, by omega⟩
    rw [List.range_succ, List.map_append, List.map_cons, List.map_nil,
      List.getLast?_concat]
    refine ⟨dfun n, rfl, ?_⟩
    have hn1 : ¬(n + 1 = 1) := by omega
    have hnz : ((n : ℚ) + 1) - 1 ≠ 0 := by
      have : 1 ≤ n := by omega
      have : (1 : ℚ) ≤ (n : ℚ) := by exact_mod_cast this
      intro h
      linarith
    have hfrac1 : (n : ℚ) / (((n : ℚ) + 1) - 1) = 1 := by
      rw [add_sub_cancel_right]
      have : 1 ≤ n := by omega
      have hpos : (0 : ℚ) < (n : ℚ) := by exact_mod_cast Nat.lt_of_lt_of_le Nat.zero_lt_one this
      field_simp
    have hdl : dfun n = (jsRound (TM * 100) : ℚ) / 100 := by
      simp only [hdfun, if_neg hn1, Nat.cast_add, Nat.cast_one, hfrac1, one_mul]
    rw [hdl]
    have h1 : (jsRound (TM * 100) : ℚ) ≤ TM * 100 + 1 / 2 := by
      have := Int.floor_le (TM * 100 + 1 / 2)
      simpa [jsRound] using this
    have h2 : TM * 100 - 1 / 2 ≤ (jsRound (TM * 100) : ℚ) := by
      have := Int.lt_floor_add_one (TM * 100 + 1 / 2)
      simp only [jsRound]
      linarith
    rw [abs_le]
    constructor <;> [linarith; linarith]
  · intro h1
    subst h1
    obtain ⟨p, hp⟩ : ∃ p, samplePoints len along geometry 1 L = [p] := by
      cases hsp : samplePoints len along geometry 1 L with
      | nil => rw [hsp] at hlen; simp at hlen
      | cons a l =>
        cases l with
        | nil => exact ⟨a, rfl⟩
        | cons b l2 => rw [hsp] at hlen; simp at hlen
    refine ⟨p, hp, ?_⟩
    have hmp := hmap
    have hr1 : List.range 1 = [0] := rfl
    rw [hp, hr1] at hmp
    simp only [List.map_cons, List.map_nil] at hmp
    rw [List.cons.injEq] at hmp
    rw [hmp.1]
    exact hd0

/-- Constant-length geodesic measure used for concrete instantiations. -/
def lenOne : List Coord → ℚ := fun _ => 1

/-- Trivial interpolation-along used for concrete instantiations. -/
def alongZero : List Coord → ℚ → Coord := fun _ _ => (0, 0)

/-- A concrete one-part geometry with two coordinates. -/
def geomE : Geometry := [[(0, 0), (1, 0)]]

/-- C1 witness: the sampler spec applied at a concrete geometry, `N = 3`,
no supplied length. -/
theorem C1_witness :
    (samplePoints lenOne alongZero geomE 3 none).length = 3 ∧
    List.Sorted (· ≤ ·) ((samplePoints lenOne alongZero geomE 3 none).map (·.distanceMi)) ∧
    ((samplePoints lenOne alongZero geomE 3 none).map (·.distanceMi)).head? = some 0 ∧
    (2 ≤ 3 → ∃ dlast,
      ((samplePoints lenOne alongZero geomE 3 none).map (·.distanceMi)).getLast? = some dlast ∧
      |dlast - sampleTotalMi lenOne geomE none| ≤ 1 / 200) ∧
    (3 = 1 → ∃ p, samplePoints lenOne alongZero geomE 3 none = [p] ∧ p.distanceMi = 0) :=
  C1_samplePoints_spec lenOne alongZero geomE 3 none (by omega)
    ⟨[(0, 0), (1, 0)], by simp [geomE], by decide, by norm_num [lenOne]⟩
    (fun l h => by cases h)

/-! ## Concrete fixtures for orchestrator-level facts -/

/-- A concrete run context: unit geodesic lengths, trivial interpolation,
an oracle that never resolves, no aspect, a constant clock. -/
def ctx0 : RunCtx :=
  { len := lenOne
    along := alongZero
    oracle := fun _ _ => none
    aspectFn := fun _ => none
    time := fun _ => 0 }

/-- A fresh progress record (source lines 235–241). -/
def progress0 : Progress := ⟨-1, 0, 0, 0, 0⟩

/-- `trailA` with an already-present (non-empty) elevation profile. -/
def trailP : Trail := { trailA with elevation_profile := some [⟨0, 2000⟩] }

/-- The 10-point interpolated profile of a 1-mile, 2000–2500 m trail. -/
def profileA : List ProfilePt :=
  [⟨0, 2000⟩, ⟨11/100, 2111⟩, ⟨22/100, 2222⟩, ⟨33/100, 2333⟩, ⟨44/100, 2444⟩,
   ⟨56/100, 2444⟩, ⟨67/100, 2333⟩, ⟨78/100, 2222⟩, ⟨89/100, 2111⟩, ⟨1, 2000⟩]

/-! ## C10 — skipped trails leave the loop state unchanged -/

/-- C10: when the trail at index `i` already carries a non-empty elevation
profile, the iteration at `i` leaves the whole loop state unchanged: the
trail list, `lastProcessedIndex`, every counter (`processedCount`,
`errorCount`, `usgsCallCount`), the timestamp, and the checkpoint list. -/
theorem C10_skip_frame (C : RunCtx) (elig : ℕ → Bool) (st : RunState) (i : ℕ)
    (t : Trail) (hget : st.trails.get? i = some t)
    (hskip : hasProfile t = true) :
    enrichBody C elig st i = st := by
  unfold enrichBody
  rw [hget]
  simp [hskip]

/-- C10 witness at a concrete state and trail. -/
theorem C10_witness :
    enrichBody ctx0 (fun _ => true) ⟨[trailP], progress0, []⟩ 0 =
      ⟨[trailP], progress0, []⟩ :=
  C10_skip_frame ctx0 (fun _ => true) ⟨[trailP], progress0, []⟩ 0 trailP rfl rfl

/-! ## C8 — re-running on a fully profiled dataset is a no-op -/

theorem foldl_skip_all (C : RunCtx) (elig : ℕ → Bool) (trails : List Trail)
    (progress : Progress) (cps : List ℕ)
    (hall : ∀ t ∈ trails, hasProfile t = true) :
    ∀ l : List ℕ,
      l.foldl (enrichBody C elig) ⟨trails, progress, cps⟩ = ⟨trails, progress, cps⟩
  | [] => rfl
  | i :: l => by
    rw [List.foldl_cons]
    have hbody : enrichBody C elig ⟨trails, progress, cps⟩ i = ⟨trails, progress, cps⟩ := by
      unfold enrichBody
      cases hget : (⟨trails, progress, cps⟩ : RunState).trails.get? i with
      | none => rfl
      | some t =>
        have ht : t ∈ trails := List.get?_mem hget
        simp [hall t ht]
    rw [hbody]
    exact foldl_skip_all C elig trails progress cps hall l

/-- C8: re-running the orchestrator on a dataset in which every trail
already carries a non-empty elevation profile processes zero trails: every
trail record, the progress record, and the checkpoint history are
unchanged. -/
theorem C8_rerun_noop (C : RunCtx) (trails : List Trail) (progress : Progress)
    (hall : ∀ t ∈ trails, hasProfile t = true) :
    enrichRun C trails progress = ⟨trails, progress, []⟩ := by
  unfold enrichRun
  exact foldl_skip_all C _ trails progress [] hall _

/-- C8 witness at a concrete fully profiled dataset. -/
theorem C8_witness :
    enrichRun ctx0 [trailP, trailP] progress0 = ⟨[trailP, trailP], progress0, []⟩ :=
  C8_rerun_noop ctx0 [trailP, trailP] progress0 (by decide)

/-! ## Per-trail path lemmas (C2, C3) -/

/-- Eligible trail, zero usable resolved points: the fallback of source
lines 374–381 — interpolated profile, half-spread gain. -/
theorem processTrail_service_empty (C : RunCtx) (t : Trail)
    (h : serviceProfile C (resolveBaseFields C t) = []) :
    processTrail C true t =
      ({ resolveBaseFields C t with
          elevation_profile := some (interpolateProfile (resolveBaseFields C t) 10)
          elevation_gain := halfSpreadGain (resolveBaseFields C t) },
        (servicePoints C (resolveBaseFields C t)).length) := by
  unfold processTrail enrichServiceBranch
  simp [h]

/-- Eligible trail, at least one usable resolved point: the success path of
source lines 361–373 — the resolved profile is stored and the gain is its
positive-delta sum (`Math.round` of an integer sum). -/
theorem processTrail_service_nonempty (C : RunCtx) (t : Trail)
    (h : serviceProfile C (resolveBaseFields C t) ≠ []) :
    (processTrail C true t).1.elevation_profile =
      some (serviceProfile C (resolveBaseFields C t)) ∧
    (processTrail C true t).1.elevation_gain =
      some (posDeltas ((serviceProfile C (resolveBaseFields C t)).map (·.elevation_m))) := by
  have hlen : (serviceProfile C (resolveBaseFields C t)).length > 0 :=
    List.length_pos.2 h
  obtain ⟨lm, emm, exm, g, emin, emax, eg, da, ep⟩ := t
  unfold processTrail enrichServiceBranch
  refine ⟨?_, ?_⟩ <;>
  · dsimp only
    rw [if_pos hlen]
    cases emm <;> cases exm <;> rfl

/-- Non-eligible trail: the interpolated branch of source lines 390–400. -/
theorem processTrail_interp (C : RunCtx) (t : Trail) :
    processTrail C false t =
      ({ resolveBaseFields C t with
          elevation_profile := some (interpolateProfile (resolveBaseFields C t) 10)
          elevation_gain := halfSpreadGain (resolveBaseFields C t) }, 0) := by
  unfold processTrail enrichInterpBranch
  simp

/-! ## C2 — where elevation gain comes from -/

/-- C2 (amended): gain equals the sum of the positive consecutive deltas of
the stored profile — and is then non-negative — exactly on the
service-derived success path; on the service-fallback and interpolated
paths the code instead sets gain to `round((max−min)/2)` when both resolved
bounds are truthy (absent otherwise), which need not equal the stored
profile's positive-delta sum. -/
theorem C2_gain_policy (C : RunCtx) (t : Trail) :
    (serviceProfile C (resolveBaseFields C t) ≠ [] →
      (processTrail C true t).1.elevation_profile =
        some (serviceProfile C (resolveBaseFields C t)) ∧
      (processTrail C true t).1.elevation_gain =
        some (posDeltas ((serviceProfile C (resolveBaseFields C t)).map (·.elevation_m))) ∧
      ∀ g : ℤ, (processTrail C true t).1.elevation_gain = some g → 0 ≤ g) ∧
    (serviceProfile C (resolveBaseFields C t) = [] →
      (processTrail C true t).1.elevation_gain =
        halfSpreadGain (resolveBaseFields C t)) ∧
    (processTrail C false t).1.elevation_gain =
      halfSpreadGain (resolveBaseFields C t) := by
  refine ⟨?_, ?_, ?_⟩
  · intro h
    obtain ⟨hp, hg⟩ := processTrail_service_nonempty C t h
    refine ⟨hp, hg, ?_⟩
    intro g hgg
    rw [hg] at hgg
    obtain rfl := Option.some.injEq .. ▸ hgg
    exact posDeltas_nonneg _
  · intro h
    rw [processTrail_service_empty C t h]
  · rw [processTrail_interp C t]

/-- C2 witness: the gain policy applied on the service-fallback path of a
concrete eligible trail whose points never resolve. -/
theorem C2_witness :
    (processTrail ctx0 true trailA).1.elevation_gain =
      halfSpreadGain (resolveBaseFields ctx0 trailA) :=
  (C2_gain_policy ctx0 trailA).2.1 rfl

/-- The non-skip iteration, in solved form: process the trail, bump the
counters, checkpoint when the interval and eligibility line up. -/
theorem enrichBody_process (C : RunCtx) (elig : ℕ → Bool) (st : RunState) (i : ℕ)
    (t : Trail) (hget : st.trails.get? i = some t) (hskip : hasProfile t = false) :
    enrichBody C elig st i =
      if (i + 1) % CHECKPOINT_INTERVAL = 0 ∧ elig i then
        ⟨st.trails.set i (processTrail C (elig i) t).1,
          ⟨(i : ℤ), st.progress.processedCount + 1, st.progress.errorCount,
            st.progress.usgsCallCount + (processTrail C (elig i) t).2, C.time i⟩,
          st.checkpoints ++ [i]⟩
      else
        ⟨st.trails.set i (processTrail C (elig i) t).1,
          ⟨(i : ℤ), st.progress.processedCount + 1, st.progress.errorCount,
            st.progress.usgsCallCount + (processTrail C (elig i) t).2, C.time i⟩,
          st.checkpoints⟩ := by
  unfold enrichBody
  rw [hget]
  simp only [hskip, Bool.false_eq_true, if_false]

/-- `trailA` after one enrichment pass through the service-fallback path. -/
def trailA' : Trail :=
  { length_miles := some 1
    elevation_min_m := some 2000
    elevation_max_m := some 2500
    geometry := []
    elevation_min := some 2000
    elevation_max := some 2500
    elevation_gain := some 250
    dominant_aspect := none
    elevation_profile := some profileA }

/-- Concrete full-run evaluation: one eligible trail, an oracle that never
resolves — the run falls back to the interpolator and stores gain 250. -/
theorem run_trailA_eval :
    enrichRun ctx0 [trailA] progress0 = ⟨[trailA'], ⟨0, 1, 0, 0, 0⟩, []⟩ := by
  have h1 : serviceProfile ctx0 (resolveBaseFields ctx0 trailA) = [] := rfl
  have h2 := processTrail_service_empty ctx0 trailA h1
  have h3 : interpolateProfile (resolveBaseFields ctx0 trailA) 10 = profileA := by
    rw [interpolate_2000_2500 (resolveBaseFields ctx0 trailA) rfl rfl rfl]
    rfl
  have h4 : halfSpreadGain (resolveBaseFields ctx0 trailA) = some 250 := by
    unfold halfSpreadGain
    rw [if_pos]
    · norm_num [resolveBaseFields, trailA, ctx0, jsRound]
    · constructor <;> decide
  have h5 : servicePoints ctx0 (resolveBaseFields ctx0 trailA) = [] := rfl
  have helig : ((usgsEligibleIdx [trailA]).contains 0) = true := rfl
  have h6 : resolveBaseFields ctx0 trailA =
      { trailA with
        elevation_min := some 2000
        elevation_max := some 2500
        dominant_aspect := none } := rfl
  have hstep : enrichRun ctx0 [trailA] progress0 =
      enrichBody ctx0 (fun i => (usgsEligibleIdx [trailA]).contains i)
        ⟨[trailA], progress0, []⟩ 0 := rfl
  rw [hstep,
    enrichBody_process ctx0 (fun i => (usgsEligibleIdx [trailA]).contains i)
      ⟨[trailA], progress0, []⟩ 0 trailA rfl rfl]
  rw [if_neg (by norm_num [CHECKPOINT_INTERVAL])]
  dsimp only
  rw [helig, h2, h5, h3, h4, h6]
  norm_num [progress0, trailA, trailA', List.set]
  rfl

/-- C2 counterexample: after the run on the concrete eligible trail, the
record carries gain 250 while the positive-delta sum of its stored profile
is 444 — gain is not derived from the profile's deltas there. -/
theorem C2_counterexample :
    ((enrichRun ctx0 [trailA] progress0).trails.head?.map (·.elevation_gain)) =
      some (some 250) ∧
    ((enrichRun ctx0 [trailA] progress0).trails.head?.map (fun t =>
      posDeltas ((t.elevation_profile.getD []).map (·.elevation_m)))) = some 444 ∧
    (250 : ℤ) ≠ 444 := by
  rw [run_trailA_eval]
  refine ⟨rfl, ?_, by decide⟩
  show some (posDeltas (profileA.map (·.elevation_m))) = some 444
  decide

/-! ## C3 — service path with zero usable points -/

/-- C3 (amended): for a service-eligible trail where the elevation service
yields zero usable (resolved) points, the orchestrator falls back to the
Profile Interpolator for the trail's profile — but it does not leave
`elevation_gain` absent: it sets it to `round((max−min)/2)` when both
resolved bounds are truthy, and only otherwise leaves it absent. -/
theorem C3_service_empty_fallback (C : RunCtx) (t : Trail)
    (h : serviceProfile C (resolveBaseFields C t) = []) :
    (processTrail C true t).1.elevation_profile =
      some (interpolateProfile (resolveBaseFields C t) 10) ∧
    (processTrail C true t).1.elevation_gain =
      halfSpreadGain (resolveBaseFields C t) := by
  rw [processTrail_service_empty C t h]
  exact ⟨rfl, rfl⟩

/-- C3 witness: the fallback behaviour at a concrete eligible trail whose
points never resolve. -/
theorem C3_witness :
    (processTrail ctx0 true trailA).1.elevation_profile =
      some (interpolateProfile (resolveBaseFields ctx0 trailA) 10) ∧
    (processTrail ctx0 true trailA).1.elevation_gain =
      halfSpreadGain (resolveBaseFields ctx0 trailA) :=
  C3_service_empty_fallback ctx0 trailA rfl

/-- C3 counterexample: on the concrete fallback run the stored gain is
`some 250`, not absent as the claim states. -/
theorem C3_counterexample :
    ((enrichRun ctx0 [trailA] progress0).trails.head?.map (·.elevation_gain)) =
      some (some 250) ∧
    some (250 : ℤ) ≠ (none : Option ℤ) := by
  rw [run_trailA_eval]
  exact ⟨rfl, by decide⟩

/-! ## Loop-frame lemmas (C4, C5) -/

theorem set_of_get?_eq {α : Type} :
    ∀ (l : List α) (i : ℕ) (a : α), l.get? i = some a → l.set i a = l
  | [], _, _, h => by cases h
  | x :: xs, 0, a, h => by
    simp only [List.get?] at h
    obtain rfl := Option.some.injEq .. ▸ h
    rfl
  | x :: xs, i + 1, a, h => by
    simp only [List.get?] at h
    show x :: xs.set i a = x :: xs
    rw [set_of_get?_eq xs i a h]

/-- The skip iteration in solved form (source lines 309–312). -/
theorem enrichBody_skip (C : RunCtx) (elig : ℕ → Bool) (st : RunState) (i : ℕ)
    (t : Trail) (hget : st.trails.get? i = some t) (hskip : hasProfile t = true) :
    enrichBody C elig st i = st := by
  unfold enrichBody
  rw [hget]
  simp [hskip]

/-- One iteration either leaves the trail list unchanged or rewrites only
index `i`. -/
theorem enrichBody_trails_cases (C : RunCtx) (elig : ℕ → Bool) (st : RunState) (i : ℕ) :
    (enrichBody C elig st i).trails = st.trails ∨
    ∃ t', (enrichBody C elig st i).trails = st.trails.set i t' := by
  unfold enrichBody
  split
  · exact Or.inl rfl
  · split
    · exact Or.inl rfl
    · split
      · exact Or.inr ⟨_, rfl⟩
      · exact Or.inr ⟨_, rfl⟩

theorem enrichBody_get?_ne (C : RunCtx) (elig : ℕ → Bool) (st : RunState) (i j : ℕ)
    (hji : j ≠ i) :
    (enrichBody C elig st i).trails.get? j = st.trails.get? j := by
  rcases enrichBody_trails_cases C elig st i with h | ⟨t', h⟩
  · rw [h]
  · rw [h, List.get?_set_ne _ _ (fun hij => hji hij.symm)]

/-- `processTrail` never touches `length_miles`. -/
theorem processTrail_length_miles (C : RunCtx) (e : Bool) (t : Trail) :
    (processTrail C e t).1.length_miles = t.length_miles := by
  obtain ⟨lm, emm, exm, g, emin, emax, eg, da, ep⟩ := t
  unfold processTrail enrichServiceBranch enrichInterpBranch resolveBaseFields
  cases e
  · rfl
  · dsimp only
    cases emm <;> cases exm <;> split <;> first | rfl | (split <;> rfl)

/-- One iteration preserves the list of original lengths. -/
theorem enrichBody_map_length_miles (C : RunCtx) (elig : ℕ → Bool) (st : RunState)
    (i : ℕ) :
    (enrichBody C elig st i).trails.map (·.length_miles) =
      st.trails.map (·.length_miles) := by
  have hmain : ∀ t, st.trails.get? i = some t →
      (st.trails.set i (processTrail C (elig i) t).1).map (·.length_miles) =
        st.trails.map (·.length_miles) := by
    intro t hget
    rw [List.map_set, processTrail_length_miles]
    apply set_of_get?_eq
    rw [List.get?_map, hget]
    rfl
  unfold enrichBody
  split
  · rfl
  · next t heq =>
    split
    · rfl
    · split
      · exact hmain t heq
      · exact hmain t heq

theorem foldl_map_length_miles (C : RunCtx) (elig : ℕ → Bool) :
    ∀ (l : List ℕ) (st : RunState),
      ((l.foldl (enrichBody C elig) st).trails.map (·.length_miles)) =
        st.trails.map (·.length_miles)
  | [], _ => rfl
  | i :: l, st => by
    rw [List.foldl_cons, foldl_map_length_miles C elig l, enrichBody_map_length_miles]

theorem foldl_get?_lt (C : RunCtx) (elig : ℕ → Bool) :
    ∀ (l : List ℕ) (st : RunState) (j : ℕ), (∀ m ∈ l, j < m) →
      ((l.foldl (enrichBody C elig) st).trails.get? j) = st.trails.get? j
  | [], _, _, _ => rfl
  | i :: l, st, j, h => by
    rw [List.foldl_cons,
      foldl_get?_lt C elig l _ j (fun m hm => h m (List.mem_cons_of_mem i hm)),
      enrichBody_get?_ne C elig st i j (Nat.ne_of_lt (h i (List.mem_cons_self i l)))]

/-- Eligibility depends only on the original lengths. -/
theorem usgsEligibleIdx_congr (t1 t2 : List Trail)
    (h : t1.map (·.length_miles) = t2.map (·.length_miles)) :
    usgsEligibleIdx t1 = usgsEligibleIdx t2 := by
  unfold usgsEligibleIdx
  rw [h]

/-! ## C4 — resumability and eligibility stability -/

/-- C4: starting from a progress record with `lastProcessedIndex = k`, the
run touches no trail at an index `≤ k` (iteration begins at `k + 1`), and
the eligibility set the resumed run computes — once, before iteration, from
its input (the previous run's output) — is identical to the one a
from-scratch run computes over the original input, because enrichment
never changes `length_miles`. -/
theorem C4_resume_consistency (C Cmid : RunCtx) (trails : List Trail)
    (p0 progress : Progress) (k : ℤ) (hk : progress.lastProcessedIndex = k) :
    (∀ i : ℕ, (i : ℤ) ≤ k →
      (enrichRun C (enrichRun Cmid trails p0).trails progress).trails.get? i =
        (enrichRun Cmid trails p0).trails.get? i) ∧
    usgsEligibleIdx (enrichRun Cmid trails p0).trails = usgsEligibleIdx trails := by
  constructor
  · intro i hi
    unfold enrichRun
    apply foldl_get?_lt
    intro m hm
    have hmem := List.mem_range'_1.1 hm
    rw [hk] at hmem
    omega
  · apply usgsEligibleIdx_congr
    unfold enrichRun
    exact foldl_map_length_miles Cmid _ _ _

/-- C4 witness: one prior run over a single concrete trail, resumed with
`lastProcessedIndex = 0`. -/
theorem C4_witness :
    ((enrichRun ctx0 (enrichRun ctx0 [trailA] progress0).trails
        ⟨0, 1, 0, 0, 0⟩).trails.get? 0 =
      (enrichRun ctx0 [trailA] progress0).trails.get? 0) ∧
    usgsEligibleIdx (enrichRun ctx0 [trailA] progress0).trails =
      usgsEligibleIdx [trailA] :=
  ⟨(C4_resume_consistency ctx0 ctx0 [trailA] progress0 ⟨0, 1, 0, 0, 0⟩ 0 rfl).1 0
      (by norm_num),
    (C4_resume_consistency ctx0 ctx0 [trailA] progress0 ⟨0, 1, 0, 0, 0⟩ 0 rfl).2⟩

/-! ## C5 — the checkpoint trigger -/

/-- The source's checkpoint trigger at index `i` (lines 309–312 and
411–416): the trail exists, is not skipped, `(i+1)` — its 1-based position
in the full dataset — is a multiple of `CHECKPOINT_INTERVAL`, and the trail
is service-eligible. -/
def checkpointCond (trails0 : List Trail) (elig : ℕ → Bool) (i : ℕ) : Bool :=
  match trails0.get? i with
  | none => false
  | some t =>
    !hasProfile t && decide ((i + 1) % CHECKPOINT_INTERVAL = 0 ∧ elig i = true)

/-- Folding the loop body over strictly increasing indices that still agree
with the initial trail list appends exactly the `checkpointCond` survivors
to the checkpoint history. -/
theorem foldl_checkpoints (C : RunCtx) (elig : ℕ → Bool) (trails0 : List Trail) :
    ∀ (l : List ℕ) (st : RunState), List.Pairwise (· < ·) l →
      (∀ j ∈ l, st.trails.get? j = trails0.get? j) →
      (l.foldl (enrichBody C elig) st).checkpoints =
        st.checkpoints ++ l.filter (checkpointCond trails0 elig)
  | [], st, _, _ => by simp
  | i :: l, st, hpw, hagree => by
    rw [List.foldl_cons, List.filter_cons]
    obtain ⟨hlt, hpw'⟩ := List.pairwise_cons.1 hpw
    have hi : st.trails.get? i = trails0.get? i := hagree i (List.mem_cons_self i l)
    have hagree' : ∀ j ∈ l, st.trails.get? j = trails0.get? j :=
      fun j hj => hagree j (List.mem_cons_of_mem i hj)
    cases hg : trails0.get? i with
    | none =>
      have hcond : checkpointCond trails0 elig i = false := by
        unfold checkpointCond
        rw [hg]
      have hbody : enrichBody C elig st i = st := by
        unfold enrichBody
        rw [hi, hg]
      rw [hbody, hcond]
      simp only [Bool.false_eq_true, if_false]
      exact foldl_checkpoints C elig trails0 l st hpw' hagree'
    | some t =>
      by_cases hskip : hasProfile t = true
      · have hcond : checkpointCond trails0 elig i = false := by
          unfold checkpointCond
          rw [hg]
          show (!hasProfile t &&
            decide ((i + 1) % CHECKPOINT_INTERVAL = 0 ∧ elig i = true)) = false
          rw [hskip]
          rfl
        have hbody : enrichBody C elig st i = st :=
          enrichBody_skip C elig st i t (hi.trans hg) hskip
        rw [hbody, hcond]
        simp only [Bool.false_eq_true, if_false]
        exact foldl_checkpoints C elig trails0 l st hpw' hagree'
      · have hskip' : hasProfile t = false := by
          cases hsk : hasProfile t
          · rfl
          · exact absurd hsk hskip
        rw [enrichBody_process C elig st i t (hi.trans hg) hskip']
        by_cases hcp : (i + 1) % CHECKPOINT_INTERVAL = 0 ∧ elig i = true
        · have hcond : checkpointCond trails0 elig i = true := by
            unfold checkpointCond
            rw [hg]
            show (!hasProfile t &&
              decide ((i + 1) % CHECKPOINT_INTERVAL = 0 ∧ elig i = true)) = true
            rw [hskip', decide_eq_true hcp]
            rfl
          rw [if_pos hcp, hcond]
          simp only [if_true]
          have hrest := foldl_checkpoints C elig trails0 l
            ⟨st.trails.set i (processTrail C (elig i) t).1,
              ⟨(i : ℤ), st.progress.processedCount + 1, st.progress.errorCount,
                st.progress.usgsCallCount + (processTrail C (elig i) t).2, C.time i⟩,
              st.checkpoints ++ [i]⟩ hpw'
            (fun j hj => by
              show (st.trails.set i (processTrail C (elig i) t).1).get? j = _
              rw [List.get?_set_ne _ _ (Nat.ne_of_lt (hlt j hj)), hagree' j hj])
          rw [hrest]
          simp
        · have hcond : checkpointCond trails0 elig i = false := by
            unfold checkpointCond
            rw [hg]
            show (!hasProfile t &&
              decide ((i + 1) % CHECKPOINT_INTERVAL = 0 ∧ elig i = true)) = false
            rw [hskip', decide_eq_false hcp]
            rfl
          rw [if_neg hcp, hcond]
          simp only [Bool.false_eq_true, if_false]
          have hrest := foldl_checkpoints C elig trails0 l
            ⟨st.trails.set i (processTrail C (elig i) t).1,
              ⟨(i : ℤ), st.progress.processedCount + 1, st.progress.errorCount,
                st.progress.usgsCallCount + (processTrail C (elig i) t).2, C.time i⟩,
              st.checkpoints⟩ hpw'
            (fun j hj => by
              show (st.trails.set i (processTrail C (elig i) t).1).get? j = _
              rw [List.get?_set_ne _ _ (Nat.ne_of_lt (hlt j hj)), hagree' j hj])
          rw [hrest]

/-- C5 (amended): a checkpoint — dataset and progress record saved together
— is written exactly after the visited, non-skipped trails whose 1-based
position `i+1` in the full dataset (not their rank since run start) is a
multiple of `CHECKPOINT_INTERVAL = 25` and which are service-eligible; in
particular a non-eligible (interpolated-only) trail never triggers a
save. -/
theorem C5_checkpoint_trigger (C : RunCtx) (trails : List Trail)
    (progress : Progress) :
    (enrichRun C trails progress).checkpoints =
      (List.range' (progress.lastProcessedIndex + 1).toNat
        (trails.length - (progress.lastProcessedIndex + 1).toNat)).filter
        (checkpointCond trails (fun i => (usgsEligibleIdx trails).contains i)) ∧
    ∀ i ∈ (enrichRun C trails progress).checkpoints,
      (usgsEligibleIdx trails).contains i = true ∧
      (i + 1) % CHECKPOINT_INTERVAL = 0 := by
  have hmain : (enrichRun C trails progress).checkpoints =
      (List.range' (progress.lastProcessedIndex + 1).toNat
        (trails.length - (progress.lastProcessedIndex + 1).toNat)).filter
        (checkpointCond trails (fun i => (usgsEligibleIdx trails).contains i)) := by
    unfold enrichRun
    rw [foldl_checkpoints C _ trails _ _ (List.pairwise_lt_range' _ _)
      (fun j _ => rfl)]
    rfl
  refine ⟨hmain, ?_⟩
  intro i hi
  rw [hmain] at hi
  have hcond := (List.mem_filter.1 hi).2
  unfold checkpointCond at hcond
  cases hg : trails.get? i with
  | none => rw [hg] at hcond; cases hcond
  | some t =>
    rw [hg] at hcond
    simp only [Bool.and_eq_true, decide_eq_true_eq] at hcond
    exact ⟨hcond.2.2, hcond.2.1⟩

/-- 25 trails: the first 24 already profiled, the last one fresh. -/
def trails25 : List Trail := List.replicate 24 trailP ++ [trailA]

/-- A progress record resuming after trail 9. -/
def pr9 : Progress := ⟨9, 0, 0, 0, 0⟩

/-- C5 witness: on the concrete resumed run, index 24 is checkpointed and
the theorem confirms it is service-eligible with `(24+1)` a multiple of the
interval. -/
theorem C5_witness :
    (usgsEligibleIdx trails25).contains 24 = true ∧
    (24 + 1) % CHECKPOINT_INTERVAL = 0 :=
  (C5_checkpoint_trigger ctx0 trails25 pr9).2 24 (by decide)

/-- C5 counterexample: resuming at index 10, the code checkpoints after
index 24 — the 15th visited and 1st actually processed trail of this run —
although no trail of rank 15 (or 1) since run start is at a multiple of the
25-trail interval; the trigger uses the absolute dataset position `i+1`,
not the rank since run start. -/
theorem C5_counterexample :
    (enrichRun ctx0 trails25 pr9).checkpoints = [24] ∧
    (24 - 10 + 1) % CHECKPOINT_INTERVAL ≠ 0 ∧
    1 % CHECKPOINT_INTERVAL ≠ 0 := by
  refine ⟨by decide, by decide, by decide⟩

/-! ## C9 — Aspect Estimator -/

/-- The normalized mean bearing of a flattened coordinate list with at
least two entries, written out (the `let`-chain of source lines 201–211). -/
theorem calculateDominantAspect_eq (bearing : Coord → Coord → ℝ) (geometry : Geometry)
    (h : ¬(flattenCoords geometry).length < 2) :
    calculateDominantAspect bearing geometry =
      some (octantOf (jsModR (jsModR
        (atan2
          (((flattenCoords geometry).zip (flattenCoords geometry).tail).map
            (fun p => Real.sin (bearing p.1 p.2 * Real.pi / 180))).sum
          (((flattenCoords geometry).zip (flattenCoords geometry).tail).map
            (fun p => Real.cos (bearing p.1 p.2 * Real.pi / 180))).sum
          * 180 / Real.pi) 360 + 360) 360)) := by
  unfold calculateDominantAspect
  rw [if_neg h]
  simp only [List.map_map]
  rfl

/-- C9: with fewer than two flattened coordinates the Aspect Estimator
returns "no aspect"; the source's chained octant classification agrees on
`[0°,360°)` with the spec's half-open 45°-wide sectors centered on the
eight compass directions (N covering `[337.5°,360°) ∪ [0°,22.5°)`); and on
a straight line running due east (every consecutive bearing 90°) it
returns `E`. -/
theorem C9_dominant_aspect_spec :
    (∀ (bearing : Coord → Coord → ℝ) (geometry : Geometry),
      (flattenCoords geometry).length < 2 →
      calculateDominantAspect bearing geometry = none) ∧
    (∀ b : ℝ, 0 ≤ b → b < 360 → octantOf b = specSector b) ∧
    calculateDominantAspect (fun _ _ => 90) [[(0, 0), (1, 0)]] = some Aspect.E := by
  refine ⟨?_, ?_, ?_⟩
  · intro bearing geometry h
    unfold calculateDominantAspect
    rw [if_pos h]
  · intro b hb0 hb360
    unfold octantOf specSector
    simp only [Set.mem_union, Set.mem_Ico]
    rcases lt_or_le b 22.5 with h1 | h1
    · rw [if_pos (Or.inr h1), if_pos (Or.inr ⟨hb0, h1⟩)]
    rcases le_or_lt 337.5 b with h8 | h8
    · rw [if_pos (Or.inl h8), if_pos (Or.inl ⟨h8, hb360⟩)]
    have hn1 : ¬(337.5 ≤ b ∨ b < 22.5) := by rintro (h | h) <;> linarith
    have hd1 : ¬(337.5 ≤ b ∧ b < 360 ∨ 0 ≤ b ∧ b < 22.5) := by
      rintro (⟨ha, hb⟩ | ⟨ha, hb⟩) <;> linarith
    rw [if_neg hn1, if_neg hd1]
  · have hπ : Real.pi ≠ 0 := Real.pi_ne_zero
    have hnl : ¬(flattenCoords [[((0 : ℚ), (0 : ℚ)), ((1 : ℚ), (0 : ℚ))]]).length < 2 := by
      decide
    rw [calculateDominantAspect_eq (fun _ _ => 90) _ hnl]
    have hzip : ((flattenCoords [[((0 : ℚ), (0 : ℚ)), ((1 : ℚ), (0 : ℚ))]]).zip
        (flattenCoords [[((0 : ℚ), (0 : ℚ)), ((1 : ℚ), (0 : ℚ))]]).tail) =
        [(((0 : ℚ), (0 : ℚ)), ((1 : ℚ), (0 : ℚ)))] := rfl
    rw [hzip]
    simp only [List.map_cons, List.map_nil, List.sum_cons, List.sum_nil, add_zero]
    have harg : (90 : ℝ) * Real.pi / 180 = Real.pi / 2 := by ring
    rw [harg, Real.sin_pi_div_two, Real.cos_pi_div_two]
    have hatan : atan2 1 0 = Real.pi / 2 := by
      unfold atan2
      rw [if_neg (by norm_num), if_neg (by norm_num), if_neg (by norm_num),
        if_pos (by norm_num)]
    rw [hatan]
    have havg : Real.pi / 2 * 180 / Real.pi = 90 := by
      field_simp
      ring
    rw [havg]
    have htr1 : jsTruncR ((90 : ℝ) / 360) = 0 := by
      unfold jsTruncR
      rw [if_pos (by norm_num)]
      norm_num
    have hmod1 : jsModR (90 : ℝ) 360 = 90 := by
      unfold jsModR
      rw [htr1]
      ring
    rw [hmod1]
    have h450 : (90 : ℝ) + 360 = 450 := by norm_num
    rw [h450]
    have htr2 : jsTruncR ((450 : ℝ) / 360) = 1 := by
      unfold jsTruncR
      rw [if_pos (by norm_num)]
      have : ⌊(450 : ℝ) / 360⌋ = 1 := by
        rw [Int.floor_eq_iff]
        constructor <;> norm_num
      rw [this]
      norm_num
    have hmod2 : jsModR (450 : ℝ) 360 = 90 := by
      unfold jsModR
      rw [htr2]
      ring
    rw [hmod2]
    unfold octantOf
    rw [if_neg (by push_neg; constructor <;> norm_num),
      if_neg (by rintro ⟨h1, h2⟩; linarith),
      if_pos (by constructor <;> norm_num)]

/-- C9 witness: the degenerate-geometry conjunct applied at a concrete
single-coordinate geometry. -/
theorem C9_witness :
    calculateDominantAspect (fun _ _ => 0) [[((0 : ℚ), (0 : ℚ))]] = none :=
  C9_dominant_aspect_spec.1 (fun _ _ => 0) [[((0 : ℚ), (0 : ℚ))]] (by decide)

end Enrich
